import Mathlib

/-!
Verification of the immersive-control plugin core (`src/main.py`):
the timed-state registry (`StateManager`), the trigger evaluator
(`Main.should_trigger` with `Main._clean_message_content` and
`Main._check_user_permission`), and the prompt-injection middleware
(`Main.before_llm_request`).

Modelling conventions:
* Wall-clock time is a natural number of seconds (`now`); the Python code
  uses float `time.time()` readings, and all durations in the code are
  integers, so integer clock readings capture the arithmetic (`int()`
  truncation of a nonnegative integer difference is the identity, and
  Python's `max(0, e - now)` is Lean's truncated subtraction on `Nat`).
* Python dicts keyed by strings are association lists `List (String × Nat)`;
  `del d[k]` is removal of every binding of `k` (a dict holds at most one),
  and dict insertion replaces an existing binding in place or appends.
* Python strings are Lean `String`s; processing is done on `String.data`
  character lists so that every definition reduces by kernel computation.
-/

namespace ImmersiveControl

/-- Association-list model of a Python dict from session keys to integer
timestamps. -/
abbrev StateMap := List (String × Nat)

/-- Dict lookup: value of the first binding of `k`, if any. -/
def mapLookup (m : StateMap) (k : String) : Option Nat :=
  match m with
  | [] => none
  | (k', v) :: rest => if k' = k then some v else mapLookup rest k

/-- Dict assignment `d[k] = v`: replace the first binding of `k` in place,
or append a fresh binding at the end. -/
def mapInsert (m : StateMap) (k : String) (v : Nat) : StateMap :=
  match m with
  | [] => [(k, v)]
  | (k', v') :: rest =>
    if k' = k then (k, v) :: rest else (k', v') :: mapInsert rest k v

/-- Dict deletion `del d[k]`: remove every binding of `k` (a dict holds at
most one). -/
def mapErase (m : StateMap) (k : String) : StateMap :=
  m.filter (fun p => decide (p.1 ≠ k))

/-- One pass of `StateManager._cleanup_expired_states` over a single map:
collect the keys whose end time has passed (`current_time >= end_time`) and
delete them, i.e. keep exactly the unexpired entries. -/
def cleanupMap (m : StateMap) (now : Nat) : StateMap :=
  m.filter (fun p => decide (now < p.2))

/-- Number of live (unexpired) entries of a map at clock reading `now`. -/
def liveCount (m : StateMap) (now : Nat) : Nat :=
  (cleanupMap m now).length

/-- The dict invariant: each key is bound at most once. -/
abbrev KeysNodup (m : StateMap) : Prop :=
  (m.map Prod.fst).Nodup

/-- Model of `StateManager`: the two shared dicts plus the capacity cap.  The Python
object also carries a lock; atomicity is modelled by each operation being a
pure function on this whole state. -/
structure StateManager where
  active_states : StateMap
  cooldowns : StateMap
  max_concurrent_states : Nat

/-- Embedding of `StateManager.generate_state_key`: `f"{platform}_{session_id}"` when
`platform` is truthy (non-empty), else `session_id`. -/
def generate_state_key (session_id : String) (platform : String) : String :=
  if platform = "" then session_id else platform ++ "_" ++ session_id

/-- Embedding of `StateManager._cleanup_expired_states`: drop expired entries from both
dicts. -/
def cleanup_expired_states (sm : StateManager) (now : Nat) : StateManager :=
  { sm with
    active_states := cleanupMap sm.active_states now
    cooldowns := cleanupMap sm.cooldowns now }

/-- Tail of `StateManager.activate_state` after the cooldown and
already-active checks: cleanup, capacity check, then insertion of the new
active state and cooldown entries. -/
def activateFresh (sm : StateManager) (state_key : String)
    (duration_seconds cooldown_seconds now : Nat) :
    StateManager × Bool × String :=
  let sm2 := cleanup_expired_states sm now
  if sm2.max_concurrent_states ≤ sm2.active_states.length then
    (sm2, false, "当前并发控制状态已达上限，请稍后再试")
  else
    ({ sm2 with
        active_states := mapInsert sm2.active_states state_key (now + duration_seconds)
        cooldowns := mapInsert sm2.cooldowns state_key (now + cooldown_seconds) },
     true,
     "🎮 控制模式已激活，AI将害羞 " ++ toString duration_seconds ++ " 秒！")

/-- Middle of `StateManager.activate_state`: the already-active check.  A
live active state fails with its remaining seconds; a stale one is deleted
before continuing. -/
def activateAfterCooldown (sm : StateManager) (state_key : String)
    (duration_seconds cooldown_seconds now : Nat) :
    StateManager × Bool × String :=
  match mapLookup sm.active_states state_key with
  | some end_time =>
    if now < end_time then
      (sm, false, "已经在控制状态中，剩余时间 " ++ toString (end_time - now) ++ " 秒")
    else
      activateFresh { sm with active_states := mapErase sm.active_states state_key }
        state_key duration_seconds cooldown_seconds now
  | none => activateFresh sm state_key duration_seconds cooldown_seconds now

/-- Embedding of `StateManager.activate_state`: cooldown check first (a live cooldown
entry fails with its remaining whole seconds), then the already-active
check, cleanup, capacity check and insertion. -/
def activate_state (sm : StateManager) (session_id platform : String)
    (duration_seconds cooldown_seconds now : Nat) :
    StateManager × Bool × String :=
  let state_key := generate_state_key session_id platform
  match mapLookup sm.cooldowns state_key with
  | some cooldown_end =>
    if now < cooldown_end then
      (sm, false, "冷却中，请等待 " ++ toString (cooldown_end - now) ++ " 秒")
    else
      activateAfterCooldown sm state_key duration_seconds cooldown_seconds now
  | none => activateAfterCooldown sm state_key duration_seconds cooldown_seconds now

/-- Embedding of `StateManager.is_state_active`: true iff the key has an entry whose end
time is still in the future; an expired entry is deleted on this access and
the call returns false. -/
def is_state_active (sm : StateManager) (session_id platform : String)
    (now : Nat) : StateManager × Bool :=
  let state_key := generate_state_key session_id platform
  match mapLookup sm.active_states state_key with
  | none => (sm, false)
  | some end_time =>
    if end_time ≤ now then
      ({ sm with active_states := mapErase sm.active_states state_key }, false)
    else
      (sm, true)

/-- Embedding of `StateManager.get_remaining_time`: `max(0, int(end - now))`, which on
integer clock readings is truncated subtraction; absent keys give 0.  No
mutation. -/
def get_remaining_time (sm : StateManager) (session_id platform : String)
    (now : Nat) : Nat :=
  let state_key := generate_state_key session_id platform
  match mapLookup sm.active_states state_key with
  | none => 0
  | some end_time => end_time - now

/-- Embedding of `StateManager.deactivate_state`: unconditionally remove the active
entry if present (true), else report false; the cooldown dict is untouched. -/
def deactivate_state (sm : StateManager) (session_id platform : String) :
    StateManager × Bool :=
  let state_key := generate_state_key session_id platform
  match mapLookup sm.active_states state_key with
  | some _ =>
    ({ sm with active_states := mapErase sm.active_states state_key }, true)
  | none => (sm, false)

/-- Embedding of `StateManager.get_active_states_info` (the snapshot used
by the admin status command): purge both dicts, then report each surviving
key with its remaining seconds.  The ISO-formatted wall-clock end time of
the Python dict is dropped from the model. -/
def get_active_states_info (sm : StateManager) (now : Nat) :
    StateManager × List (String × Nat) :=
  let sm2 := cleanup_expired_states sm now
  (sm2, sm2.active_states.map (fun p => (p.1, p.2 - now)))

/-- Python `str.strip()` on a character list: drop leading and trailing
whitespace. -/
def trimChars (l : List Char) : List Char :=
  ((l.dropWhile Char.isWhitespace).reverse.dropWhile Char.isWhitespace).reverse

/-- Python `str.strip()` on strings. -/
def strip (s : String) : String := (trimChars s.data).asString

/-- Recursion core of `stripAtMentions`; the fuel argument is a structural
bound on the scan length (the wrapper passes the list length, which always
suffices) so that the definition evaluates by kernel reduction. -/
def stripAtMentionsFuel : Nat → List Char → List Char
  | _, [] => []
  | 0, l => l
  | fuel + 1, c :: rest =>
    if c = '@' then stripAtMentionsFuel fuel (rest.dropWhile (fun d => !d.isWhitespace))
    else c :: stripAtMentionsFuel fuel rest

/-- Embedding of `re.sub(r"@[^\s]*", "", message)`: each `@` together with the maximal
following run of non-whitespace characters is deleted; scanning resumes
after the deleted match. -/
def stripAtMentions (l : List Char) : List Char :=
  stripAtMentionsFuel l.length l

/-- Scan to the first `]`, returning the characters after it (the regex
`[^\]]*\]` consumes up to and including the first closing bracket); `none`
when no closing bracket exists, in which case the regex does not match. -/
def dropThroughRBracket : List Char → Option (List Char)
  | [] => none
  | c :: rest => if c = ']' then some rest else dropThroughRBracket rest

theorem dropThroughRBracket_length :
    ∀ {l t : List Char}, dropThroughRBracket l = some t → t.length < l.length := by
  intro l
  induction l with
  | nil => intro t h; simp [dropThroughRBracket] at h
  | cons c rest ih =>
    intro t h
    simp only [dropThroughRBracket] at h
    split at h
    · cases h; exact Nat.lt_succ_self _
    · exact Nat.lt_trans (ih h) (Nat.lt_succ_self _)

/-- Recursion core of `stripCQAt`, fuelled like `stripAtMentionsFuel`. -/
def stripCQAtFuel : Nat → List Char → List Char
  | _, [] => []
  | 0, l => l
  | fuel + 1, c :: rest =>
    if c = '[' ∧ "CQ:at".data.isPrefixOf rest = true then
      match dropThroughRBracket (rest.drop 5) with
      | some tail => stripCQAtFuel fuel tail
      | none => c :: stripCQAtFuel fuel rest
    else c :: stripCQAtFuel fuel rest

/-- Embedding of `re.sub(r"\[CQ:at[^\]]*\]", "", message)`: each `[CQ:at` followed by
non-`]` characters and a closing `]` is deleted; a `[CQ:at` with no closing
bracket is not a match and is kept. -/
def stripCQAt (l : List Char) : List Char :=
  stripCQAtFuel l.length l

/-- Embedding of `Main._clean_message_content`: strip `@...` mentions, then `[CQ:at...]`
tags, then surrounding whitespace. -/
def clean_message_content (message : String) : String :=
  (trimChars (stripCQAt (stripAtMentions message.data))).asString

/-- The configuration fields consulted by the trigger evaluator. -/
structure TriggerConfig where
  enabled : Bool
  trigger_keywords : List String
  authorized_users : List String
  admin_only_mode : Bool

/-- Embedding of `Main._check_user_permission`: admin-only mode admits every sender (the
source's acknowledged placeholder); an empty authorized list admits
everyone; otherwise membership is required. -/
def check_user_permission (user_id : String) (config : TriggerConfig) : Bool :=
  if config.admin_only_mode then true
  else if config.authorized_users.isEmpty then true
  else config.authorized_users.contains user_id

/-- Python `str.lower()` (ASCII case folding suffices for this model). -/
def lowerStr (s : String) : String := (s.data.map Char.toLower).asString

/-- Python substring containment `needle in hay`. -/
def strContains (hay needle : String) : Bool := decide (needle.data <:+: hay.data)

/-- The loop body of the keyword scan:
`keyword.lower() in cleaned_message.lower()`. -/
def keywordMatches (cleaned_message : String) (keyword : String) : Bool :=
  strContains (lowerStr cleaned_message) (lowerStr keyword)

/-- Embedding of `Main.should_trigger` as the pure decision function over the fields it
reads from the event and the configuration: enabled gate, addressed gate,
permission gate, raw-message emptiness gate, then first-match keyword scan
over the cleaned message. -/
def should_trigger (message_str : String) (is_at : Bool) (user_id : String)
    (config : TriggerConfig) : Bool × String :=
  if config.enabled = false then (false, "插件未启用")
  else if is_at = false then (false, "消息未@机器人")
  else if check_user_permission user_id config = false then
    (false, "用户无权限使用此功能")
  else
    let message_content := strip message_str
    if message_content = "" then (false, "消息内容为空")
    else
      let cleaned_message := clean_message_content message_content
      match config.trigger_keywords.find? (keywordMatches cleaned_message) with
      | some keyword => (true, "匹配关键词: " ++ keyword)
      | none => (false, "未匹配到触发关键词")

/-- Python `str.format` restricted to the two named fields the template is
documented to carry: `\x7bitem_name\x7d` is replaced by `item`,
`\x7bsensitivity\x7d` by `sens`; any other brace makes formatting fail
(Python raises `KeyError`/`ValueError`), signalled by `none`. -/
def formatTemplateFuel (item sens : List Char) : Nat → List Char → Option (List Char)
  | _, [] => some []
  | 0, _ :: _ => none
  | fuel + 1, c :: rest =>
    if c = '\x7b' then
      if "item_name\x7d".data.isPrefixOf rest = true then
        (formatTemplateFuel item sens fuel (rest.drop 10)).map (fun r => item ++ r)
      else if "sensitivity\x7d".data.isPrefixOf rest = true then
        (formatTemplateFuel item sens fuel (rest.drop 12)).map (fun r => sens ++ r)
      else none
    else if c = '\x7d' then none
    else (formatTemplateFuel item sens fuel rest).map (fun r => c :: r)

/-- Wrapper running the formatting scan with sufficient fuel. -/
def formatTemplate (item sens l : List Char) : Option (List Char) :=
  formatTemplateFuel item sens l.length l

/-- Embedding of `Main.before_llm_request` reduced to its data flow: when the session is
not in an active state or the template is empty, the system prompt is left
alone; otherwise the rendered template is prepended, separated from an
existing non-empty system prompt by a blank line.  A formatting failure
raises in Python and is swallowed by the handler's `except`, leaving the
prompt unchanged (`none` branch).  The sensitivity integer is rendered in
decimal (`Nat.repr`). -/
def before_llm_request (state_active : Bool) (prompt_template item_name : String)
    (sensitivity : Nat) (system_prompt : String) : String :=
  if state_active = false then system_prompt
  else if prompt_template = "" then system_prompt
  else
    match formatTemplate item_name.data (Nat.repr sensitivity).data prompt_template.data with
    | none => system_prompt
    | some injected =>
      if system_prompt ≠ "" then injected.asString ++ "\n\n" ++ system_prompt
      else injected.asString

/-! ### Association-map lemmas -/

theorem mapLookup_mapInsert_self (m : StateMap) (k : String) (v : Nat) :
    mapLookup (mapInsert m k v) k = some v := by
  induction m with
  | nil => simp [mapInsert, mapLookup]
  | cons p rest ih =>
    by_cases h : p.1 = k
    · simp [mapInsert, mapLookup, h]
    · simp [mapInsert, mapLookup, h, ih]

theorem mapLookup_cons (p : String × Nat) (rest : StateMap) (k : String) :
    mapLookup (p :: rest) k =
      if p.1 = k then some p.2 else mapLookup rest k := by
  cases p
  rfl

theorem mapErase_cons (p : String × Nat) (rest : StateMap) (k : String) :
    mapErase (p :: rest) k =
      if p.1 = k then mapErase rest k else p :: mapErase rest k := by
  by_cases h : p.1 = k <;> simp [mapErase, List.filter_cons, h]

theorem cleanupMap_cons (p : String × Nat) (rest : StateMap) (now : Nat) :
    cleanupMap (p :: rest) now =
      if now < p.2 then p :: cleanupMap rest now else cleanupMap rest now := by
  by_cases h : now < p.2 <;> simp [cleanupMap, List.filter_cons, h]

theorem mapLookup_mapErase_self (m : StateMap) (k : String) :
    mapLookup (mapErase m k) k = none := by
  induction m with
  | nil => simp [mapErase, mapLookup]
  | cons p rest ih =>
    rw [mapErase_cons]
    by_cases h : p.1 = k
    · simpa [h] using ih
    · simp [h, mapLookup, ih]

theorem mapLookup_mapErase_ne (m : StateMap) (k k' : String) (h : k' ≠ k) :
    mapLookup (mapErase m k) k' = mapLookup m k' := by
  induction m with
  | nil => rfl
  | cons p rest ih =>
    rw [mapErase_cons]
    by_cases hp : p.1 = k
    · have hpk : p.1 ≠ k' := by rw [hp]; exact Ne.symm h
      rw [if_pos hp, ih, mapLookup_cons, if_neg hpk]
    · rw [if_neg hp, mapLookup_cons, mapLookup_cons]
      by_cases hq : p.1 = k'
      · rw [if_pos hq, if_pos hq]
      · rw [if_neg hq, if_neg hq, ih]

theorem mapErase_sublist (m : StateMap) (k : String) :
    List.Sublist (mapErase m k) m :=
  List.filter_sublist m

theorem cleanupMap_sublist (m : StateMap) (now : Nat) :
    List.Sublist (cleanupMap m now) m :=
  List.filter_sublist m

theorem liveCount_mono_sublist {m' m : StateMap} (now : Nat)
    (h : List.Sublist m' m) : liveCount m' now ≤ liveCount m now :=
  (h.filter _).length_le

theorem liveCount_cleanupMap (m : StateMap) (now : Nat) :
    liveCount (cleanupMap m now) now = liveCount m now := by
  simp [liveCount, cleanupMap, List.filter_filter]

theorem length_cleanupMap (m : StateMap) (now : Nat) :
    (cleanupMap m now).length = liveCount m now := rfl

theorem liveCount_le_length (m : StateMap) (now : Nat) :
    liveCount m now ≤ m.length :=
  (List.filter_sublist m).length_le

theorem length_mapInsert_le (m : StateMap) (k : String) (v : Nat) :
    (mapInsert m k v).length ≤ m.length + 1 := by
  induction m with
  | nil => simp [mapInsert]
  | cons p rest ih =>
    by_cases h : p.1 = k
    · simp [mapInsert, h]
    · simp only [mapInsert, h, if_false, List.length_cons]
      omega

theorem mapLookup_eq_none_of_not_mem_keys {m : StateMap} {k : String}
    (h : k ∉ m.map Prod.fst) : mapLookup m k = none := by
  induction m with
  | nil => rfl
  | cons p rest ih =>
    simp only [List.map_cons, List.mem_cons] at h
    push_neg at h
    have h1 : p.1 ≠ k := fun hh => h.1 hh.symm
    simp [mapLookup, h1, ih h.2]

theorem mapLookup_cleanupMap_live {m : StateMap} {k : String} {e now : Nat}
    (h : mapLookup m k = some e) (hlive : now < e) :
    mapLookup (cleanupMap m now) k = some e := by
  induction m with
  | nil => simp [mapLookup] at h
  | cons p rest ih =>
    rw [cleanupMap_cons]
    by_cases hp : p.1 = k
    · simp only [mapLookup, hp, if_pos rfl] at h
      cases h
      rw [if_pos hlive]
      simp [mapLookup, hp]
    · simp only [mapLookup, if_neg hp] at h
      by_cases hl : now < p.2
      · simp [hl, mapLookup, hp, ih h]
      · simp [hl, ih h]

theorem mapLookup_cleanupMap_expired {m : StateMap} {k : String} {e now : Nat}
    (hnd : KeysNodup m) (h : mapLookup m k = some e) (hexp : e ≤ now) :
    mapLookup (cleanupMap m now) k = none := by
  induction m with
  | nil => simp [mapLookup] at h
  | cons p rest ih =>
    have hnd' : KeysNodup rest := (List.nodup_cons.mp hnd).2
    rw [cleanupMap_cons]
    by_cases hp : p.1 = k
    · simp only [mapLookup, hp, if_pos rfl] at h
      cases h
      have hk : k ∉ rest.map Prod.fst := by
        have := (List.nodup_cons.mp hnd).1
        rwa [hp] at this
      have hrest2 : mapLookup (cleanupMap rest now) k = none := by
        apply mapLookup_eq_none_of_not_mem_keys
        intro hmem
        exact hk (((cleanupMap_sublist rest now).map Prod.fst).mem hmem)
      rw [if_neg (by omega)]
      exact hrest2
    · simp only [mapLookup, if_neg hp] at h
      by_cases hl : now < p.2
      · simp [hl, mapLookup, hp, ih hnd' h]
      · simp [hl, ih hnd' h]

theorem mapLookup_cleanupMap_none {m : StateMap} {k : String} (now : Nat)
    (h : mapLookup m k = none) :
    mapLookup (cleanupMap m now) k = none := by
  induction m with
  | nil => rfl
  | cons p rest ih =>
    rw [cleanupMap_cons]
    by_cases hp : p.1 = k
    · simp [mapLookup, hp] at h
    · simp only [mapLookup, if_neg hp] at h
      by_cases hl : now < p.2
      · simp [hl, mapLookup, hp, ih h]
      · simp [hl, ih h]

theorem cleanupMap_mapErase_expired {m : StateMap} {k : String} {e now : Nat}
    (hnd : KeysNodup m) (h : mapLookup m k = some e) (hexp : e ≤ now) :
    cleanupMap (mapErase m k) now = cleanupMap m now := by
  induction m with
  | nil => rfl
  | cons p rest ih =>
    have hnd' : KeysNodup rest := (List.nodup_cons.mp hnd).2
    rw [mapErase_cons]
    by_cases hp : p.1 = k
    · simp only [mapLookup, hp, if_pos rfl] at h
      cases h
      have hk : k ∉ rest.map Prod.fst := by
        have := (List.nodup_cons.mp hnd).1
        rwa [hp] at this
      have hrest : mapErase rest k = rest := by
        apply List.filter_eq_self.mpr
        intro a ha
        simp only [decide_eq_true_eq]
        intro hak
        exact hk (List.mem_map.mpr ⟨a, ha, hak⟩)
      rw [if_pos hp, hrest, cleanupMap_cons, if_neg (by omega)]
    · simp only [mapLookup, if_neg hp] at h
      rw [if_neg hp, cleanupMap_cons, cleanupMap_cons]
      by_cases hl : now < p.2
      · simp [hl, ih hnd' h]
      · simp [hl, ih hnd' h]

/-! ### Activation-path lemmas -/

theorem activate_state_cooldown_live (sm : StateManager)
    (session_id platform : String) (d c now ce : Nat)
    (hc : mapLookup sm.cooldowns (generate_state_key session_id platform) = some ce)
    (hlive : now < ce) :
    activate_state sm session_id platform d c now =
      (sm, false, "冷却中，请等待 " ++ toString (ce - now) ++ " 秒") := by
  simp [activate_state, hc, hlive]

theorem activate_state_no_cooldown (sm : StateManager)
    (session_id platform : String) (d c now : Nat)
    (hc : ∀ ce, mapLookup sm.cooldowns (generate_state_key session_id platform) = some ce →
      ce ≤ now) :
    activate_state sm session_id platform d c now =
      activateAfterCooldown sm (generate_state_key session_id platform) d c now := by
  cases h : mapLookup sm.cooldowns (generate_state_key session_id platform) with
  | none => simp [activate_state, h]
  | some ce => simp [activate_state, h, Nat.not_lt.mpr (hc ce h)]

theorem activateAfterCooldown_active_live (sm : StateManager) (key : String)
    (d c now e : Nat) (ha : mapLookup sm.active_states key = some e)
    (hlive : now < e) :
    activateAfterCooldown sm key d c now =
      (sm, false, "已经在控制状态中，剩余时间 " ++ toString (e - now) ++ " 秒") := by
  simp [activateAfterCooldown, ha, hlive]

theorem activateAfterCooldown_active_stale (sm : StateManager) (key : String)
    (d c now e : Nat) (ha : mapLookup sm.active_states key = some e)
    (hexp : e ≤ now) :
    activateAfterCooldown sm key d c now =
      activateFresh { sm with active_states := mapErase sm.active_states key }
        key d c now := by
  simp [activateAfterCooldown, ha, Nat.not_lt.mpr hexp]

theorem activateAfterCooldown_active_none (sm : StateManager) (key : String)
    (d c now : Nat) (ha : mapLookup sm.active_states key = none) :
    activateAfterCooldown sm key d c now = activateFresh sm key d c now := by
  simp [activateAfterCooldown, ha]

theorem activateFresh_capacity (sm : StateManager) (key : String) (d c now : Nat)
    (hcap : sm.max_concurrent_states ≤ liveCount sm.active_states now) :
    activateFresh sm key d c now =
      (cleanup_expired_states sm now, false, "当前并发控制状态已达上限，请稍后再试") := by
  simp only [activateFresh, cleanup_expired_states]
  rw [if_pos (show sm.max_concurrent_states ≤ (cleanupMap sm.active_states now).length from hcap)]

theorem activateFresh_success (sm : StateManager) (key : String) (d c now : Nat)
    (hcap : liveCount sm.active_states now < sm.max_concurrent_states) :
    activateFresh sm key d c now =
      ({ active_states := mapInsert (cleanupMap sm.active_states now) key (now + d)
         cooldowns := mapInsert (cleanupMap sm.cooldowns now) key (now + c)
         max_concurrent_states := sm.max_concurrent_states },
       true, "🎮 控制模式已激活，AI将害羞 " ++ toString d ++ " 秒！") := by
  simp only [activateFresh, cleanup_expired_states]
  rw [if_neg (show ¬ sm.max_concurrent_states ≤ (cleanupMap sm.active_states now).length from
    Nat.not_le.mpr hcap)]

theorem activateFresh_success_lookup (sm : StateManager) (key : String)
    (d c now : Nat) (hs : (activateFresh sm key d c now).2.1 = true) :
    mapLookup (activateFresh sm key d c now).1.active_states key = some (now + d) ∧
    mapLookup (activateFresh sm key d c now).1.cooldowns key = some (now + c) := by
  by_cases h : sm.max_concurrent_states ≤ liveCount sm.active_states now
  · rw [activateFresh_capacity sm key d c now h] at hs
    simp at hs
  · rw [activateFresh_success sm key d c now (Nat.not_le.mp h)]
    exact ⟨mapLookup_mapInsert_self _ _ _, mapLookup_mapInsert_self _ _ _⟩

theorem activateAfterCooldown_success_lookup (sm : StateManager) (key : String)
    (d c now : Nat) (hs : (activateAfterCooldown sm key d c now).2.1 = true) :
    mapLookup (activateAfterCooldown sm key d c now).1.active_states key = some (now + d) ∧
    mapLookup (activateAfterCooldown sm key d c now).1.cooldowns key = some (now + c) := by
  cases ha : mapLookup sm.active_states key with
  | none =>
    rw [activateAfterCooldown_active_none sm key d c now ha] at hs ⊢
    exact activateFresh_success_lookup sm key d c now hs
  | some e =>
    by_cases hlt : now < e
    · rw [activateAfterCooldown_active_live sm key d c now e ha hlt] at hs
      simp at hs
    · rw [activateAfterCooldown_active_stale sm key d c now e ha (Nat.not_lt.mp hlt)] at hs ⊢
      exact activateFresh_success_lookup _ key d c now hs

theorem activate_state_success_lookup (sm : StateManager)
    (session_id platform : String) (d c now : Nat)
    (hs : (activate_state sm session_id platform d c now).2.1 = true) :
    mapLookup (activate_state sm session_id platform d c now).1.active_states
      (generate_state_key session_id platform) = some (now + d) ∧
    mapLookup (activate_state sm session_id platform d c now).1.cooldowns
      (generate_state_key session_id platform) = some (now + c) := by
  cases hc : mapLookup sm.cooldowns (generate_state_key session_id platform) with
  | none =>
    have heq : activate_state sm session_id platform d c now =
        activateAfterCooldown sm (generate_state_key session_id platform) d c now :=
      activate_state_no_cooldown sm session_id platform d c now
        (fun ce hce => by rw [hc] at hce; cases hce)
    rw [heq] at hs ⊢
    exact activateAfterCooldown_success_lookup sm _ d c now hs
  | some ce =>
    by_cases hlt : now < ce
    · rw [activate_state_cooldown_live sm session_id platform d c now ce hc hlt] at hs
      simp at hs
    · have heq : activate_state sm session_id platform d c now =
          activateAfterCooldown sm (generate_state_key session_id platform) d c now :=
        activate_state_no_cooldown sm session_id platform d c now
          (fun ce' hce => by rw [hc] at hce; cases hce; exact Nat.not_lt.mp hlt)
      rw [heq] at hs ⊢
      exact activateAfterCooldown_success_lookup sm _ d c now hs

/-! ### Registry claim theorems -/

theorem activateFresh_liveCount_le (sm : StateManager) (key : String)
    (d c now : Nat) (h : liveCount sm.active_states now ≤ sm.max_concurrent_states) :
    liveCount (activateFresh sm key d c now).1.active_states now ≤
      sm.max_concurrent_states := by
  by_cases hcap : sm.max_concurrent_states ≤ liveCount sm.active_states now
  · rw [activateFresh_capacity sm key d c now hcap]
    simpa [cleanup_expired_states, liveCount_cleanupMap] using h
  · rw [activateFresh_success sm key d c now (Nat.not_le.mp hcap)]
    have h1 : liveCount (mapInsert (cleanupMap sm.active_states now) key (now + d)) now ≤
        (mapInsert (cleanupMap sm.active_states now) key (now + d)).length :=
      liveCount_le_length _ now
    have h2 := length_mapInsert_le (cleanupMap sm.active_states now) key (now + d)
    have h3 : (cleanupMap sm.active_states now).length = liveCount sm.active_states now :=
      length_cleanupMap _ _
    have h4 := Nat.not_le.mp hcap
    simp only []
    omega

/-- C1: for every key, duration `d > 0` and cooldown `c`, a successful
`activate` at clock time `now` inserts an active entry expiring at `now + d`
and a cooldown entry expiring at `now + c`, and at the same clock reading
`is_state_active` answers true and `get_remaining_time` lies in `(0, d]`. -/
theorem C1_activate_success_postconditions (sm : StateManager)
    (session_id platform : String) (d c now : Nat) (hd : 0 < d)
    (hs : (activate_state sm session_id platform d c now).2.1 = true) :
    mapLookup (activate_state sm session_id platform d c now).1.active_states
      (generate_state_key session_id platform) = some (now + d) ∧
    mapLookup (activate_state sm session_id platform d c now).1.cooldowns
      (generate_state_key session_id platform) = some (now + c) ∧
    (is_state_active (activate_state sm session_id platform d c now).1
      session_id platform now).2 = true ∧
    0 < get_remaining_time (activate_state sm session_id platform d c now).1
      session_id platform now ∧
    get_remaining_time (activate_state sm session_id platform d c now).1
      session_id platform now ≤ d := by
  obtain ⟨h1, h2⟩ := activate_state_success_lookup sm session_id platform d c now hs
  have hnle : ¬ now + d ≤ now := by omega
  refine ⟨h1, h2, ?_, ?_, ?_⟩
  · simp [is_state_active, h1, hnle]
  · simp [get_remaining_time, h1]
    omega
  · simp [get_remaining_time, h1]

theorem C1_witness :
    (0 < 5 ∧ (activate_state ⟨[], [], 1⟩ "s" "qq" 5 3 0).2.1 = true) ∧
    (mapLookup (activate_state ⟨[], [], 1⟩ "s" "qq" 5 3 0).1.active_states
      (generate_state_key "s" "qq") = some (0 + 5) ∧
    mapLookup (activate_state ⟨[], [], 1⟩ "s" "qq" 5 3 0).1.cooldowns
      (generate_state_key "s" "qq") = some (0 + 3) ∧
    (is_state_active (activate_state ⟨[], [], 1⟩ "s" "qq" 5 3 0).1 "s" "qq" 0).2 = true ∧
    0 < get_remaining_time (activate_state ⟨[], [], 1⟩ "s" "qq" 5 3 0).1 "s" "qq" 0 ∧
    get_remaining_time (activate_state ⟨[], [], 1⟩ "s" "qq" 5 3 0).1 "s" "qq" 0 ≤ 5) :=
  ⟨⟨by decide, by decide⟩,
   C1_activate_success_postconditions ⟨[], [], 1⟩ "s" "qq" 5 3 0 (by decide) (by decide)⟩

/-- C2: live active entries never exceed the cap — `activate_state`,
`is_state_active` and `deactivate_state` each preserve the bound — and
`activate_state` fails with the capacity message whenever the purge leaves
the live count at or above the cap (reached when the key itself has neither
a live cooldown nor a live active entry). -/
theorem C2_capacity_invariant (sm : StateManager) (session_id platform : String)
    (d c now : Nat) :
    (liveCount sm.active_states now ≤ sm.max_concurrent_states →
      liveCount (activate_state sm session_id platform d c now).1.active_states now ≤
        sm.max_concurrent_states) ∧
    (liveCount sm.active_states now ≤ sm.max_concurrent_states →
      liveCount (is_state_active sm session_id platform now).1.active_states now ≤
        sm.max_concurrent_states) ∧
    (liveCount sm.active_states now ≤ sm.max_concurrent_states →
      liveCount (deactivate_state sm session_id platform).1.active_states now ≤
        sm.max_concurrent_states) ∧
    (liveCount sm.active_states now ≤ sm.max_concurrent_states →
      liveCount (get_active_states_info sm now).1.active_states now ≤
        sm.max_concurrent_states) ∧
    (KeysNodup sm.active_states →
      (∀ ce, mapLookup sm.cooldowns (generate_state_key session_id platform) = some ce →
        ce ≤ now) →
      (∀ e, mapLookup sm.active_states (generate_state_key session_id platform) = some e →
        e ≤ now) →
      sm.max_concurrent_states ≤ liveCount sm.active_states now →
      (activate_state sm session_id platform d c now).2 =
        (false, "当前并发控制状态已达上限，请稍后再试")) := by
  refine ⟨?_, ?_, ?_, ?_, ?_⟩
  · intro h
    cases hc : mapLookup sm.cooldowns (generate_state_key session_id platform) with
    | some ce =>
      by_cases hlt : now < ce
      · rw [activate_state_cooldown_live sm session_id platform d c now ce hc hlt]
        exact h
      · rw [activate_state_no_cooldown sm session_id platform d c now
          (fun ce' hce => by rw [hc] at hce; cases hce; exact Nat.not_lt.mp hlt)]
        cases ha : mapLookup sm.active_states (generate_state_key session_id platform) with
        | some e =>
          by_cases hel : now < e
          · rw [activateAfterCooldown_active_live sm _ d c now e ha hel]
            exact h
          · rw [activateAfterCooldown_active_stale sm _ d c now e ha (Nat.not_lt.mp hel)]
            exact activateFresh_liveCount_le _ _ d c now
              (Nat.le_trans (liveCount_mono_sublist now (mapErase_sublist _ _)) h)
        | none =>
          rw [activateAfterCooldown_active_none sm _ d c now ha]
          exact activateFresh_liveCount_le sm _ d c now h
    | none =>
      rw [activate_state_no_cooldown sm session_id platform d c now
        (fun ce' hce => by rw [hc] at hce; cases hce)]
      cases ha : mapLookup sm.active_states (generate_state_key session_id platform) with
      | some e =>
        by_cases hel : now < e
        · rw [activateAfterCooldown_active_live sm _ d c now e ha hel]
          exact h
        · rw [activateAfterCooldown_active_stale sm _ d c now e ha (Nat.not_lt.mp hel)]
          exact activateFresh_liveCount_le _ _ d c now
            (Nat.le_trans (liveCount_mono_sublist now (mapErase_sublist _ _)) h)
      | none =>
        rw [activateAfterCooldown_active_none sm _ d c now ha]
        exact activateFresh_liveCount_le sm _ d c now h
  · intro h
    cases ha : mapLookup sm.active_states (generate_state_key session_id platform) with
    | none => simpa [is_state_active, ha] using h
    | some e =>
      by_cases hle : e ≤ now
      · simp only [is_state_active, ha, if_pos hle]
        exact Nat.le_trans (liveCount_mono_sublist now (mapErase_sublist _ _)) h
      · simpa [is_state_active, ha, hle] using h
  · intro h
    cases ha : mapLookup sm.active_states (generate_state_key session_id platform) with
    | none => simpa [deactivate_state, ha] using h
    | some e =>
      simp only [deactivate_state, ha]
      exact Nat.le_trans (liveCount_mono_sublist now (mapErase_sublist _ _)) h
  · intro h
    simp only [get_active_states_info, cleanup_expired_states]
    rw [show liveCount (cleanupMap sm.active_states now) now =
      liveCount sm.active_states now from liveCount_cleanupMap _ _]
    exact h
  · intro hnd hcool hact hcap
    rw [activate_state_no_cooldown sm session_id platform d c now hcool]
    cases ha : mapLookup sm.active_states (generate_state_key session_id platform) with
    | some e =>
      rw [activateAfterCooldown_active_stale sm _ d c now e ha (hact e ha)]
      have hclean : cleanupMap (mapErase sm.active_states
          (generate_state_key session_id platform)) now = cleanupMap sm.active_states now :=
        cleanupMap_mapErase_expired hnd ha (hact e ha)
      have hcap2 : sm.max_concurrent_states ≤
          liveCount (mapErase sm.active_states (generate_state_key session_id platform)) now := by
        simp only [liveCount, hclean]
        exact hcap
      rw [activateFresh_capacity
        { active_states := mapErase sm.active_states (generate_state_key session_id platform),
          cooldowns := sm.cooldowns, max_concurrent_states := sm.max_concurrent_states }
        (generate_state_key session_id platform) d c now hcap2]
    | none =>
      rw [activateAfterCooldown_active_none sm _ d c now ha]
      rw [activateFresh_capacity sm _ d c now hcap]

theorem C2_witness :
    (liveCount [("x", 9)] 4 ≤ 1 →
      liveCount (activate_state ⟨[("x", 9)], [], 1⟩ "s" "qq" 5 3 4).1.active_states 4 ≤ 1) ∧
    (KeysNodup ([("x", 9)] : StateMap) ∧
      1 ≤ liveCount [("x", 9)] 4 ∧
      (activate_state ⟨[("x", 9)], [], 1⟩ "s" "qq" 5 3 4).2 =
        (false, "当前并发控制状态已达上限，请稍后再试")) :=
  ⟨(C2_capacity_invariant ⟨[("x", 9)], [], 1⟩ "s" "qq" 5 3 4).1,
   by decide,
   by decide,
   (C2_capacity_invariant ⟨[("x", 9)], [], 1⟩ "s" "qq" 5 3 4).2.2.2.2
     (by decide)
     (fun ce hce => by simp [mapLookup] at hce)
     (fun e he => by simp [mapLookup, generate_state_key] at he)
     (by decide)⟩

/-- C3: a live cooldown entry makes `activate_state` fail with the
cooldown message carrying the remaining whole seconds, leaving the state
untouched, whatever the active-state dict holds for the key: the cooldown
check precedes the already-active check. -/
theorem C3_cooldown_blocks_reactivation (sm : StateManager)
    (session_id platform : String) (d c now ce : Nat)
    (hc : mapLookup sm.cooldowns (generate_state_key session_id platform) = some ce)
    (hlive : now < ce) :
    activate_state sm session_id platform d c now =
      (sm, false, "冷却中，请等待 " ++ toString (ce - now) ++ " 秒") :=
  activate_state_cooldown_live sm session_id platform d c now ce hc hlive

theorem C3_witness :
    (mapLookup (⟨[("qq_s", 2)], [("qq_s", 10)], 5⟩ : StateManager).cooldowns
      (generate_state_key "s" "qq") = some 10 ∧ 4 < 10) ∧
    activate_state ⟨[("qq_s", 2)], [("qq_s", 10)], 5⟩ "s" "qq" 60 30 4 =
      (⟨[("qq_s", 2)], [("qq_s", 10)], 5⟩, false, "冷却中，请等待 " ++ toString (10 - 4) ++ " 秒") :=
  ⟨⟨by decide, by decide⟩,
   C3_cooldown_blocks_reactivation ⟨[("qq_s", 2)], [("qq_s", 10)], 5⟩ "s" "qq" 60 30 4 10
     (by decide) (by decide)⟩

/-- C4: `is_state_active` answers true exactly when the key has an entry
with a strictly future expiry; an expired entry is removed on the access
that observes it, with a false answer; in particular once the activation
duration has elapsed after a successful `activate_state`, the query answers
false and purges the entry. -/
theorem C4_is_active_iff_live (sm : StateManager) (session_id platform : String)
    (now : Nat) :
    ((is_state_active sm session_id platform now).2 = true ↔
      ∃ e, mapLookup sm.active_states (generate_state_key session_id platform) = some e ∧
        now < e) ∧
    (∀ e, mapLookup sm.active_states (generate_state_key session_id platform) = some e →
      e ≤ now →
      is_state_active sm session_id platform now =
        ({ sm with active_states :=
            mapErase sm.active_states (generate_state_key session_id platform) }, false)) ∧
    (∀ d c t, (activate_state sm session_id platform d c now).2.1 = true →
      now + d ≤ t →
      (is_state_active (activate_state sm session_id platform d c now).1
        session_id platform t).2 = false ∧
      (is_state_active (activate_state sm session_id platform d c now).1
        session_id platform t).1.active_states =
        mapErase (activate_state sm session_id platform d c now).1.active_states
          (generate_state_key session_id platform)) := by
  refine ⟨?_, ?_, ?_⟩
  · cases ha : mapLookup sm.active_states (generate_state_key session_id platform) with
    | none => simp [is_state_active, ha]
    | some e =>
      by_cases hle : e ≤ now
      · simp only [is_state_active, ha, if_pos hle]
        simp
        omega
      · simp only [is_state_active, ha, if_neg hle]
        simp
        omega
  · intro e ha hle
    simp [is_state_active, ha, hle]
  · intro d c t hs ht
    obtain ⟨h1, _⟩ := activate_state_success_lookup sm session_id platform d c now hs
    exact ⟨by simp [is_state_active, h1, ht], by simp [is_state_active, h1, ht]⟩

theorem C4_witness :
    (mapLookup [("qq_s", 3)] (generate_state_key "s" "qq") = some 3 ∧ 3 ≤ 5) ∧
    is_state_active ⟨[("qq_s", 3)], [], 10⟩ "s" "qq" 5 =
      ({ active_states := mapErase [("qq_s", 3)] (generate_state_key "s" "qq"),
         cooldowns := [], max_concurrent_states := 10 }, false) :=
  ⟨⟨by decide, by decide⟩,
   (C4_is_active_iff_live ⟨[("qq_s", 3)], [], 10⟩ "s" "qq" 5).2.1 3 (by decide) (by decide)⟩

/-- C5: `deactivate_state` removes the active entry when present (answering
true, after which `is_state_active` is false at every clock reading) and
answers false otherwise, in both cases leaving the cooldown dict unchanged;
hence a later `activate_state` within a live cooldown window still fails
with the cooldown message. -/
theorem C5_deactivate_frame (sm : StateManager) (session_id platform : String) :
    (deactivate_state sm session_id platform).1.cooldowns = sm.cooldowns ∧
    (∀ e, mapLookup sm.active_states (generate_state_key session_id platform) = some e →
      deactivate_state sm session_id platform =
        ({ sm with active_states :=
            mapErase sm.active_states (generate_state_key session_id platform) }, true) ∧
      ∀ now, (is_state_active (deactivate_state sm session_id platform).1
        session_id platform now).2 = false) ∧
    (mapLookup sm.active_states (generate_state_key session_id platform) = none →
      deactivate_state sm session_id platform = (sm, false)) ∧
    (∀ d c now ce,
      mapLookup sm.cooldowns (generate_state_key session_id platform) = some ce →
      now < ce →
      activate_state (deactivate_state sm session_id platform).1 session_id platform
          d c now =
        ((deactivate_state sm session_id platform).1, false,
          "冷却中，请等待 " ++ toString (ce - now) ++ " 秒")) := by
  have hcool : (deactivate_state sm session_id platform).1.cooldowns = sm.cooldowns := by
    cases ha : mapLookup sm.active_states (generate_state_key session_id platform) with
    | none => simp [deactivate_state, ha]
    | some e => simp [deactivate_state, ha]
  refine ⟨hcool, ?_, ?_, ?_⟩
  · intro e ha
    refine ⟨by simp [deactivate_state, ha], ?_⟩
    intro now
    simp [deactivate_state, ha, is_state_active, mapLookup_mapErase_self]
  · intro ha
    simp [deactivate_state, ha]
  · intro d c now ce hc hlive
    exact activate_state_cooldown_live _ session_id platform d c now ce
      (by rw [hcool]; exact hc) hlive

theorem C5_witness :
    mapLookup [("qq_s", 100)] (generate_state_key "s" "qq") = some 100 ∧
    (deactivate_state ⟨[("qq_s", 100)], [("qq_s", 50)], 5⟩ "s" "qq" =
      ({ active_states := mapErase [("qq_s", 100)] (generate_state_key "s" "qq"),
         cooldowns := [("qq_s", 50)], max_concurrent_states := 5 }, true) ∧
      ∀ now, (is_state_active
        (deactivate_state ⟨[("qq_s", 100)], [("qq_s", 50)], 5⟩ "s" "qq").1
        "s" "qq" now).2 = false) ∧
    (7 < 50 ∧
      activate_state (deactivate_state ⟨[("qq_s", 100)], [("qq_s", 50)], 5⟩ "s" "qq").1
          "s" "qq" 60 30 7 =
        ((deactivate_state ⟨[("qq_s", 100)], [("qq_s", 50)], 5⟩ "s" "qq").1, false,
          "冷却中，请等待 " ++ toString (50 - 7) ++ " 秒")) :=
  ⟨by decide,
   (C5_deactivate_frame ⟨[("qq_s", 100)], [("qq_s", 50)], 5⟩ "s" "qq").2.1 100 (by decide),
   by decide,
   (C5_deactivate_frame ⟨[("qq_s", 100)], [("qq_s", 50)], 5⟩ "s" "qq").2.2.2 60 30 7 50
     (by decide) (by decide)⟩

theorem cleanup_lookup_cases {m : StateMap} (hnd : KeysNodup m) (now : Nat)
    (k : String) :
    mapLookup (cleanupMap m now) k = mapLookup m k ∨
      (mapLookup (cleanupMap m now) k = none ∧
        ∃ e, mapLookup m k = some e ∧ e ≤ now) := by
  cases hk : mapLookup m k with
  | none =>
    left
    rw [mapLookup_cleanupMap_none now hk]
  | some e =>
    by_cases hl : now < e
    · left
      rw [mapLookup_cleanupMap_live hk hl]
    · right
      exact ⟨mapLookup_cleanupMap_expired hnd hk (Nat.not_lt.mp hl),
        e, rfl, Nat.not_lt.mp hl⟩

theorem activate_state_failure_state (sm : StateManager)
    (session_id platform : String) (d c now : Nat)
    (hnda : KeysNodup sm.active_states)
    (hf : (activate_state sm session_id platform d c now).2.1 = false) :
    (activate_state sm session_id platform d c now).1 = sm ∨
      ((activate_state sm session_id platform d c now).1.active_states =
          cleanupMap sm.active_states now ∧
        (activate_state sm session_id platform d c now).1.cooldowns =
          cleanupMap sm.cooldowns now) := by
  cases hc : mapLookup sm.cooldowns (generate_state_key session_id platform) with
  | some ce =>
    by_cases hlt : now < ce
    · rw [activate_state_cooldown_live sm session_id platform d c now ce hc hlt]
      exact Or.inl rfl
    · rw [activate_state_no_cooldown sm session_id platform d c now
        (fun ce' hce => by rw [hc] at hce; cases hce; exact Nat.not_lt.mp hlt)] at hf ⊢
      cases ha : mapLookup sm.active_states (generate_state_key session_id platform) with
      | some e =>
        by_cases hel : now < e
        · rw [activateAfterCooldown_active_live sm _ d c now e ha hel]
          exact Or.inl rfl
        · rw [activateAfterCooldown_active_stale sm _ d c now e ha (Nat.not_lt.mp hel)] at hf ⊢
          by_cases hcap : sm.max_concurrent_states ≤
              liveCount (mapErase sm.active_states
                (generate_state_key session_id platform)) now
          · rw [activateFresh_capacity
              { active_states := mapErase sm.active_states
                  (generate_state_key session_id platform),
                cooldowns := sm.cooldowns,
                max_concurrent_states := sm.max_concurrent_states }
              (generate_state_key session_id platform) d c now hcap]
            right
            constructor
            · exact cleanupMap_mapErase_expired hnda ha (Nat.not_lt.mp hel)
            · rfl
          · rw [activateFresh_success
              { active_states := mapErase sm.active_states
                  (generate_state_key session_id platform),
                cooldowns := sm.cooldowns,
                max_concurrent_states := sm.max_concurrent_states }
              (generate_state_key session_id platform) d c now (Nat.not_le.mp hcap)] at hf
            simp at hf
      | none =>
        rw [activateAfterCooldown_active_none sm _ d c now ha] at hf ⊢
        by_cases hcap : sm.max_concurrent_states ≤ liveCount sm.active_states now
        · rw [activateFresh_capacity sm _ d c now hcap]
          exact Or.inr ⟨rfl, rfl⟩
        · rw [activateFresh_success sm _ d c now (Nat.not_le.mp hcap)] at hf
          simp at hf
  | none =>
    rw [activate_state_no_cooldown sm session_id platform d c now
      (fun ce' hce => by rw [hc] at hce; cases hce)] at hf ⊢
    cases ha : mapLookup sm.active_states (generate_state_key session_id platform) with
    | some e =>
      by_cases hel : now < e
      · rw [activateAfterCooldown_active_live sm _ d c now e ha hel]
        exact Or.inl rfl
      · rw [activateAfterCooldown_active_stale sm _ d c now e ha (Nat.not_lt.mp hel)] at hf ⊢
        by_cases hcap : sm.max_concurrent_states ≤
            liveCount (mapErase sm.active_states
              (generate_state_key session_id platform)) now
        · rw [activateFresh_capacity
            { active_states := mapErase sm.active_states
                (generate_state_key session_id platform),
              cooldowns := sm.cooldowns,
              max_concurrent_states := sm.max_concurrent_states }
            (generate_state_key session_id platform) d c now hcap]
          right
          constructor
          · exact cleanupMap_mapErase_expired hnda ha (Nat.not_lt.mp hel)
          · rfl
        · rw [activateFresh_success
            { active_states := mapErase sm.active_states
                (generate_state_key session_id platform),
              cooldowns := sm.cooldowns,
              max_concurrent_states := sm.max_concurrent_states }
            (generate_state_key session_id platform) d c now (Nat.not_le.mp hcap)] at hf
          simp at hf
    | none =>
      rw [activateAfterCooldown_active_none sm _ d c now ha] at hf ⊢
      by_cases hcap : sm.max_concurrent_states ≤ liveCount sm.active_states now
      · rw [activateFresh_capacity sm _ d c now hcap]
        exact Or.inr ⟨rfl, rfl⟩
      · rw [activateFresh_success sm _ d c now (Nat.not_le.mp hcap)] at hf
        simp at hf

/-- C10: a failed `activate_state` inserts no entry into either dict for
any key and extends no expiry; per key, each dict binding is either exactly
as before or was an already-expired binding that the lazy purge removed. -/
theorem C10_failure_atomicity (sm : StateManager) (session_id platform : String)
    (d c now : Nat) (hnda : KeysNodup sm.active_states)
    (hndc : KeysNodup sm.cooldowns)
    (hf : (activate_state sm session_id platform d c now).2.1 = false) :
    (∀ k, mapLookup (activate_state sm session_id platform d c now).1.active_states k =
        mapLookup sm.active_states k ∨
      (mapLookup (activate_state sm session_id platform d c now).1.active_states k = none ∧
        ∃ e, mapLookup sm.active_states k = some e ∧ e ≤ now)) ∧
    (∀ k, mapLookup (activate_state sm session_id platform d c now).1.cooldowns k =
        mapLookup sm.cooldowns k ∨
      (mapLookup (activate_state sm session_id platform d c now).1.cooldowns k = none ∧
        ∃ e, mapLookup sm.cooldowns k = some e ∧ e ≤ now)) := by
  rcases activate_state_failure_state sm session_id platform d c now hnda hf with
    hsame | ⟨hact, hcool⟩
  · rw [hsame]
    exact ⟨fun k => Or.inl rfl, fun k => Or.inl rfl⟩
  · constructor
    · intro k
      rw [hact]
      exact cleanup_lookup_cases hnda now k
    · intro k
      rw [hcool]
      exact cleanup_lookup_cases hndc now k

theorem C10_witness :
    (KeysNodup ([("x", 9)] : StateMap) ∧ KeysNodup ([] : StateMap) ∧
      (activate_state ⟨[("x", 9)], [], 1⟩ "s" "qq" 5 3 4).2.1 = false) ∧
    (mapLookup (activate_state ⟨[("x", 9)], [], 1⟩ "s" "qq" 5 3 4).1.active_states "x" =
        mapLookup [("x", 9)] "x" ∨
      (mapLookup (activate_state ⟨[("x", 9)], [], 1⟩ "s" "qq" 5 3 4).1.active_states "x" =
          none ∧
        ∃ e, mapLookup [("x", 9)] "x" = some e ∧ e ≤ 4)) :=
  ⟨⟨by decide, by decide, by decide⟩,
   (C10_failure_atomicity ⟨[("x", 9)], [], 1⟩ "s" "qq" 5 3 4 (by decide) (by decide)
     (by decide)).1 "x"⟩

/-! ### Session-key claims -/

theorem append_underscore_inj :
    ∀ (a b c d : List Char), ('_' ∈ a → False) → ('_' ∈ c → False) →
      a ++ '_' :: b = c ++ '_' :: d → a = c ∧ b = d := by
  intro a
  induction a with
  | nil =>
    intro b c d _ hc h
    cases c with
    | nil =>
      simp only [List.nil_append] at h
      injection h with h1 h2
      exact ⟨rfl, h2⟩
    | cons y c' =>
      simp only [List.nil_append, List.cons_append] at h
      injection h with h1 h2
      subst h1
      exact absurd (List.mem_cons_self _ _) hc
  | cons x a' ih =>
    intro b c d ha hc h
    cases c with
    | nil =>
      simp only [List.cons_append, List.nil_append] at h
      injection h with h1 h2
      subst h1
      exact absurd (List.mem_cons_self _ _) ha
    | cons y c' =>
      simp only [List.cons_append] at h
      injection h with h1 h2
      subst h1
      have ha' : '_' ∈ a' → False := fun hm => ha (List.mem_cons_of_mem _ hm)
      have hc' : '_' ∈ c' → False := fun hm => hc (List.mem_cons_of_mem _ hm)
      obtain ⟨h3, h4⟩ := ih b c' d ha' hc' h2
      exact ⟨by rw [h3], h4⟩

/-- C8 counterexample: key derivation by underscore concatenation is not
injective on (platform, session) pairs — the distinct pairs
("a", "b_c") and ("a_b", "c") collide on the key "a_b_c". -/
theorem C8_counterexample :
    generate_state_key "b_c" "a" = generate_state_key "c" "a_b" ∧
      (("a", "b_c") : String × String) ≠ ("a_b", "c") := by
  constructor
  · decide
  · decide

/-- C8 (amended): key derivation is injective only on restricted inputs:
whenever both platform identifiers are non-empty and underscore-free,
equal derived keys force equal platforms and equal session identifiers.
Without that restriction distinct pairs can collide (see the
counterexample). -/
theorem C8_amended_key_injective (p1 s1 p2 s2 : String)
    (hp1 : p1 ≠ "") (hp2 : p2 ≠ "")
    (hu1 : ('_' ∈ p1.data) → False) (hu2 : ('_' ∈ p2.data) → False)
    (h : generate_state_key s1 p1 = generate_state_key s2 p2) :
    p1 = p2 ∧ s1 = s2 := by
  rw [generate_state_key, generate_state_key, if_neg hp1, if_neg hp2] at h
  have hd : p1.data ++ '_' :: s1.data = p2.data ++ '_' :: s2.data := by
    have h2 := congrArg String.data h
    simpa [String.data_append, List.append_assoc] using h2
  obtain ⟨hp, hs⟩ := append_underscore_inj p1.data s1.data p2.data s2.data hu1 hu2 hd
  exact ⟨String.ext hp, String.ext hs⟩

theorem C8_witness :
    (("qq" : String) ≠ "" ∧ (('_' ∈ "qq".data) → False) ∧
      generate_state_key "123" "qq" = generate_state_key "123" "qq") ∧
    (("qq" : String) = "qq" ∧ ("123" : String) = "123") :=
  ⟨⟨by decide, by decide, rfl⟩,
   C8_amended_key_injective "qq" "123" "qq" "123" (by decide) (by decide)
     (by decide) (by decide) rfl⟩

/-! ### Trigger-evaluator claims -/

theorem should_trigger_keyword_stage (message_str : String) (is_at : Bool)
    (user_id : String) (config : TriggerConfig)
    (he : config.enabled = true) (ha : is_at = true)
    (hp : check_user_permission user_id config = true)
    (hm : strip message_str ≠ "") :
    should_trigger message_str is_at user_id config =
      match config.trigger_keywords.find?
          (keywordMatches (clean_message_content (strip message_str))) with
      | some keyword => (true, "匹配关键词: " ++ keyword)
      | none => (false, "未匹配到触发关键词") := by
  simp [should_trigger, he, ha, hp, hm]

/-- C6: under the enabled/addressed/permission/non-empty gates, the trigger
fires exactly when some configured keyword, lower-cased, is a contiguous
substring of the lower-cased cleaned message (substring, not tokenized),
and the first keyword in configured order that matches is the one named in
the match reason. -/
theorem C6_keyword_substring_trigger (message_str : String) (is_at : Bool)
    (user_id : String) (config : TriggerConfig)
    (he : config.enabled = true) (ha : is_at = true)
    (hp : check_user_permission user_id config = true)
    (hm : strip message_str ≠ "") :
    ((should_trigger message_str is_at user_id config).1 = true ↔
      ∃ k, k ∈ config.trigger_keywords ∧
        (lowerStr k).data <:+:
          (lowerStr (clean_message_content (strip message_str))).data) ∧
    (∀ k, config.trigger_keywords.find?
        (keywordMatches (clean_message_content (strip message_str))) = some k →
      should_trigger message_str is_at user_id config =
        (true, "匹配关键词: " ++ k)) := by
  have hred := should_trigger_keyword_stage message_str is_at user_id config he ha hp hm
  constructor
  · rw [hred]
    cases hf : config.trigger_keywords.find?
        (keywordMatches (clean_message_content (strip message_str))) with
    | some k =>
      constructor
      · intro _
        refine ⟨k, List.mem_of_find?_eq_some hf, ?_⟩
        have hk := List.find?_some hf
        simpa [keywordMatches, strContains] using hk
      · intro _
        rfl
    | none =>
      constructor
      · intro hfalse
        simp at hfalse
      · rintro ⟨k, hmem, hsub⟩
        have hnot := List.find?_eq_none.mp hf k hmem
        exact absurd (by simpa [keywordMatches, strContains] using hsub) hnot
  · intro k hk
    rw [hred, hk]

theorem C6_witness :
    (check_user_permission "u" ⟨true, ["控制"], [], false⟩ = true ∧
      strip "@bot 请开始控制吧" ≠ "" ∧
      (⟨true, ["控制"], [], false⟩ : TriggerConfig).trigger_keywords.find?
        (keywordMatches (clean_message_content (strip "@bot 请开始控制吧"))) =
          some "控制") ∧
    should_trigger "@bot 请开始控制吧" true "u" ⟨true, ["控制"], [], false⟩ =
      (true, "匹配关键词: " ++ "控制") :=
  ⟨⟨by decide, by decide, by decide⟩,
   (C6_keyword_substring_trigger "@bot 请开始控制吧" true "u" ⟨true, ["控制"], [], false⟩
     rfl rfl (by decide) (by decide)).2 "控制" (by decide)⟩

/-- C7 counterexample: the message "@bot" becomes empty once mention markup
is stripped, yet `should_trigger` reaches the keyword scan and reports the
no-keyword-match reason — not the empty-message reason the claim requires —
because the emptiness check runs on the raw trimmed text before mention
stripping. -/
theorem C7_counterexample :
    clean_message_content (strip "@bot") = "" ∧
    should_trigger "@bot" true "u" ⟨true, ["控制"], [], false⟩ =
      (false, "未匹配到触发关键词") ∧
    ("未匹配到触发关键词" : String) ≠ "消息内容为空" :=
  ⟨by decide, by decide, by decide⟩

/-- C7 (amended): the emptiness short-circuit applies to the raw message
text after whitespace trimming and before mention-markup removal: under the
earlier gates, `should_trigger` returns the empty-message reason exactly
when the trimmed raw text is empty, and a message whose raw text is
non-empty but becomes empty after mention stripping falls through to the
keyword scan, failing with the no-match reason when every configured
keyword is non-empty. -/
theorem C7_amended_empty_check (message_str : String) (is_at : Bool)
    (user_id : String) (config : TriggerConfig)
    (he : config.enabled = true) (ha : is_at = true)
    (hp : check_user_permission user_id config = true) :
    (strip message_str = "" →
      should_trigger message_str is_at user_id config = (false, "消息内容为空")) ∧
    ((should_trigger message_str is_at user_id config).2 = "消息内容为空" →
      strip message_str = "") ∧
    (strip message_str ≠ "" →
      clean_message_content (strip message_str) = "" →
      (∀ k, k ∈ config.trigger_keywords → k ≠ "") →
      should_trigger message_str is_at user_id config =
        (false, "未匹配到触发关键词")) := by
  refine ⟨?_, ?_, ?_⟩
  · intro hm
    simp [should_trigger, he, ha, hp, hm]
  · intro habs
    by_cases hm : strip message_str = ""
    · exact hm
    · exfalso
      rw [should_trigger_keyword_stage message_str is_at user_id config he ha hp hm]
        at habs
      cases hf : config.trigger_keywords.find?
          (keywordMatches (clean_message_content (strip message_str))) with
      | some k =>
        rw [hf] at habs
        simp only [] at habs
        have hlen := congrArg (fun s => s.data.length) habs
        simp [String.data_append] at hlen
      | none =>
        rw [hf] at habs
        simp at habs
  · intro hm hclean hkw
    rw [should_trigger_keyword_stage message_str is_at user_id config he ha hp hm]
    have hnone : config.trigger_keywords.find?
        (keywordMatches (clean_message_content (strip message_str))) = none := by
      apply List.find?_eq_none.mpr
      intro k hk
      rw [hclean]
      simp only [keywordMatches, strContains, lowerStr, List.asString,
        decide_eq_true_eq]
      intro hsub
      have hme : k.data.map Char.toLower = [] := by
        simpa using hsub
      have hnil : k.data = [] := List.map_eq_nil_iff.mp hme
      exact hkw k hk (String.ext (by simpa using hnil))
    rw [hnone]

theorem C7_witness :
    ((strip "@bot" ≠ "" ∧ clean_message_content (strip "@bot") = "") ∧
      should_trigger "@bot" true "u" ⟨true, ["控制"], [], false⟩ =
        (false, "未匹配到触发关键词")) ∧
    (strip "   " = "" ∧
      should_trigger "   " true "u" ⟨true, ["控制"], [], false⟩ =
        (false, "消息内容为空")) :=
  ⟨⟨⟨by decide, by decide⟩,
    (C7_amended_empty_check "@bot" true "u" ⟨true, ["控制"], [], false⟩ rfl rfl
      (by decide)).2.2 (by decide) (by decide) (fun k hk => by
        simp at hk
        subst hk
        decide)⟩,
   by decide,
   (C7_amended_empty_check "   " true "u" ⟨true, ["控制"], [], false⟩ rfl rfl
     (by decide)).1 (by decide)⟩

/-! ### Template-rendering lemmas -/

theorem infix_cons_elim {x : Char} {p b : List Char} :
    ∀ a : List Char, (x ∈ a → False) → (x :: p) <:+: a ++ b → (x :: p) <:+: b := by
  intro a
  induction a with
  | nil =>
    intro _ h
    simpa using h
  | cons y a2 ih =>
    intro hx h
    rw [List.cons_append] at h
    rcases List.infix_cons_iff.mp h with hpre | hinf
    · obtain ⟨hxy, _⟩ := List.cons_prefix_cons.mp hpre
      subst hxy
      exact absurd (List.mem_cons_self _ _) hx
    · exact ih (fun hm => hx (List.mem_cons_of_mem _ hm)) hinf

theorem infix_append_left {l r s : List Char} (h : l <:+: r) : l <:+: s ++ r := by
  obtain ⟨x, y, hxy⟩ := h
  exact ⟨s ++ x, y, by rw [← hxy]; simp [List.append_assoc]⟩

theorem infix_cons_of_infix {l r : List Char} (c : Char) (h : l <:+: r) :
    l <:+: c :: r :=
  infix_append_left (s := [c]) h

theorem prefix_head_eq {x : Char} {p l : List Char} (h : (x :: p) <+: l) :
    ∃ t, l = x :: t := by
  cases l with
  | nil => exact absurd h (by simp)
  | cons z t =>
    obtain ⟨hz, _⟩ := List.cons_prefix_cons.mp h
    exact ⟨t, by rw [hz]⟩

theorem formatTemplateFuel_item_infix (item sens : List Char) :
    ∀ fuel l r, l.length ≤ fuel →
      formatTemplateFuel item sens fuel l = some r →
      "\x7bitem_name\x7d".data <:+: l → item <:+: r := by
  intro fuel
  induction fuel with
  | zero =>
    intro l r hlen hf hinf
    have hl : l = [] := List.eq_nil_of_length_eq_zero (Nat.le_zero.mp hlen)
    subst hl
    exact absurd (List.infix_nil.mp hinf) (by decide)
  | succ f ih =>
    intro l r hlen hf hinf
    cases l with
    | nil => exact absurd (List.infix_nil.mp hinf) (by decide)
    | cons c rest =>
      have hpat : ("\x7bitem_name\x7d".data : List Char) =
          '\x7b' :: "item_name\x7d".data := by decide
      simp only [List.length_cons] at hlen
      have hrlen : rest.length ≤ f := by omega
      simp only [formatTemplateFuel] at hf
      by_cases hc : c = '\x7b'
      · by_cases hp1 : "item_name\x7d".data.isPrefixOf rest = true
        · rw [if_pos hc, if_pos hp1] at hf
          rcases Option.map_eq_some'.mp hf with ⟨r2, _, hr2⟩
          rw [← hr2]
          exact (List.prefix_append item r2).isInfix
        · by_cases hp2 : "sensitivity\x7d".data.isPrefixOf rest = true
          · rw [if_pos hc, if_neg hp1, if_pos hp2] at hf
            rcases Option.map_eq_some'.mp hf with ⟨r2, hr2, hreq⟩
            rw [hpat] at hinf
            rcases List.infix_cons_iff.mp hinf with hpre | hinf2
            · subst hc
              obtain ⟨_, hpre2⟩ := List.cons_prefix_cons.mp hpre
              exact absurd ( List.isPrefixOf_iff_prefix.mpr hpre2) hp1
            · obtain ⟨t, ht⟩ := List.isPrefixOf_iff_prefix.mp hp2
              have hdrop : rest.drop 12 = t := by
                rw [← ht]
                exact List.drop_left' (by decide)
              rw [hdrop] at hr2
              have hinf3 : ('\x7b' :: "item_name\x7d".data) <:+: t := by
                refine infix_cons_elim "sensitivity\x7d".data (by decide) ?_
                rw [ht]
                exact hinf2
              rw [← hpat] at hinf3
              have htlen : t.length ≤ f := by
                have h2 : t.length ≤ rest.length := by
                  rw [← ht, List.length_append]
                  omega
                omega
              have hit := ih t r2 htlen hr2 hinf3
              rw [← hreq]
              exact infix_append_left hit
          · rw [if_pos hc, if_neg hp1, if_neg hp2] at hf
            cases hf
      · by_cases hd : c = '\x7d'
        · rw [if_neg hc, if_pos hd] at hf
          cases hf
        · rw [if_neg hc, if_neg hd] at hf
          rcases Option.map_eq_some'.mp hf with ⟨r2, hr2, hreq⟩
          rw [hpat] at hinf
          rcases List.infix_cons_iff.mp hinf with hpre | hinf2
          · obtain ⟨hxy, _⟩ := List.cons_prefix_cons.mp hpre
            exact absurd hxy.symm hc
          · rw [← hpat] at hinf2
            rw [← hreq]
            exact infix_cons_of_infix c (ih rest r2 hrlen hr2 hinf2)

theorem formatTemplateFuel_sens_infix (item sens : List Char) :
    ∀ fuel l r, l.length ≤ fuel →
      formatTemplateFuel item sens fuel l = some r →
      "\x7bsensitivity\x7d".data <:+: l → sens <:+: r := by
  intro fuel
  induction fuel with
  | zero =>
    intro l r hlen hf hinf
    have hl : l = [] := List.eq_nil_of_length_eq_zero (Nat.le_zero.mp hlen)
    subst hl
    exact absurd (List.infix_nil.mp hinf) (by decide)
  | succ f ih =>
    intro l r hlen hf hinf
    cases l with
    | nil => exact absurd (List.infix_nil.mp hinf) (by decide)
    | cons c rest =>
      have hpat : ("\x7bsensitivity\x7d".data : List Char) =
          '\x7b' :: "sensitivity\x7d".data := by decide
      simp only [List.length_cons] at hlen
      have hrlen : rest.length ≤ f := by omega
      simp only [formatTemplateFuel] at hf
      by_cases hc : c = '\x7b'
      · by_cases hp1 : "item_name\x7d".data.isPrefixOf rest = true
        · rw [if_pos hc, if_pos hp1] at hf
          rcases Option.map_eq_some'.mp hf with ⟨r2, hr2, hreq⟩
          rw [hpat] at hinf
          rcases List.infix_cons_iff.mp hinf with hpre | hinf2
          · subst hc
            obtain ⟨_, hpre2⟩ := List.cons_prefix_cons.mp hpre
            obtain ⟨t1, ht1⟩ := prefix_head_eq
              (show ('s' :: "ensitivity\x7d".data) <+: rest from (by decide : ("sensitivity\x7d".data : List Char) = 's' :: "ensitivity\x7d".data) ▸ hpre2)
            obtain ⟨t2, ht2⟩ := prefix_head_eq
              (show ('i' :: "tem_name\x7d".data) <+: rest from (by decide : ("item_name\x7d".data : List Char) = 'i' :: "tem_name\x7d".data) ▸ ( List.isPrefixOf_iff_prefix.mp hp1))
            rw [ht1] at ht2
            injection ht2 with hsi _
            exact absurd hsi (by decide)
          · obtain ⟨t, ht⟩ := List.isPrefixOf_iff_prefix.mp hp1
            have hdrop : rest.drop 10 = t := by
              rw [← ht]
              exact List.drop_left' (by decide)
            rw [hdrop] at hr2
            have hinf3 : ('\x7b' :: "sensitivity\x7d".data) <:+: t := by
              refine infix_cons_elim "item_name\x7d".data (by decide) ?_
              rw [ht]
              exact hinf2
            rw [← hpat] at hinf3
            have htlen : t.length ≤ f := by
              have h2 : t.length ≤ rest.length := by
                rw [← ht, List.length_append]
                omega
              omega
            have hit := ih t r2 htlen hr2 hinf3
            rw [← hreq]
            exact infix_append_left hit
        · by_cases hp2 : "sensitivity\x7d".data.isPrefixOf rest = true
          · rw [if_pos hc, if_neg hp1, if_pos hp2] at hf
            rcases Option.map_eq_some'.mp hf with ⟨r2, _, hreq⟩
            rw [← hreq]
            exact (List.prefix_append sens r2).isInfix
          · rw [if_pos hc, if_neg hp1, if_neg hp2] at hf
            cases hf
      · by_cases hd : c = '\x7d'
        · rw [if_neg hc, if_pos hd] at hf
          cases hf
        · rw [if_neg hc, if_neg hd] at hf
          rcases Option.map_eq_some'.mp hf with ⟨r2, hr2, hreq⟩
          rw [hpat] at hinf
          rcases List.infix_cons_iff.mp hinf with hpre | hinf2
          · obtain ⟨hxy, _⟩ := List.cons_prefix_cons.mp hpre
            exact absurd hxy.symm hc
          · rw [← hpat] at hinf2
            rw [← hreq]
            exact infix_cons_of_infix c (ih rest r2 hrlen hr2 hinf2)

theorem formatTemplateFuel_no_lbrace (item sens : List Char)
    (hitem : '\x7b' ∈ item → False) (hsens : '\x7b' ∈ sens → False) :
    ∀ fuel l r, formatTemplateFuel item sens fuel l = some r →
      '\x7b' ∈ r → False := by
  intro fuel
  induction fuel with
  | zero =>
    intro l r hf hmem
    cases l with
    | nil =>
      simp only [formatTemplateFuel] at hf
      cases hf
      simp at hmem
    | cons c rest =>
      simp only [formatTemplateFuel] at hf
      cases hf
  | succ f ih =>
    intro l r hf hmem
    cases l with
    | nil =>
      simp only [formatTemplateFuel] at hf
      cases hf
      simp at hmem
    | cons c rest =>
      simp only [formatTemplateFuel] at hf
      by_cases hc : c = '\x7b'
      · by_cases hp1 : "item_name\x7d".data.isPrefixOf rest = true
        · rw [if_pos hc, if_pos hp1] at hf
          rcases Option.map_eq_some'.mp hf with ⟨r2, hr2, hreq⟩
          rw [← hreq] at hmem
          rcases List.mem_append.mp hmem with h | h
          · exact hitem h
          · exact ih (rest.drop 10) r2 hr2 h
        · by_cases hp2 : "sensitivity\x7d".data.isPrefixOf rest = true
          · rw [if_pos hc, if_neg hp1, if_pos hp2] at hf
            rcases Option.map_eq_some'.mp hf with ⟨r2, hr2, hreq⟩
            rw [← hreq] at hmem
            rcases List.mem_append.mp hmem with h | h
            · exact hsens h
            · exact ih (rest.drop 12) r2 hr2 h
          · rw [if_pos hc, if_neg hp1, if_neg hp2] at hf
            cases hf
      · by_cases hd : c = '\x7d'
        · rw [if_neg hc, if_pos hd] at hf
          cases hf
        · rw [if_neg hc, if_neg hd] at hf
          rcases Option.map_eq_some'.mp hf with ⟨r2, hr2, hreq⟩
          rw [← hreq] at hmem
          rcases List.mem_cons.mp hmem with h | h
          · exact hc h.symm
          · exact ih rest r2 hr2 h

theorem digitChar_ne_lbrace (m : Nat) : Nat.digitChar m ≠ '\x7b' := by
  rcases Nat.lt_or_ge m 16 with h | h
  · interval_cases m <;> decide
  · have hne : ∀ k : Nat, k < 16 → m = k → False := by
      intro k hk hmk
      omega
    have h16 : Nat.digitChar m = '*' := by
      delta Nat.digitChar
      rw [if_neg (hne 0 (by omega)), if_neg (hne 1 (by omega)), if_neg (hne 2 (by omega)),
          if_neg (hne 3 (by omega)), if_neg (hne 4 (by omega)), if_neg (hne 5 (by omega)),
          if_neg (hne 6 (by omega)), if_neg (hne 7 (by omega)), if_neg (hne 8 (by omega)),
          if_neg (hne 9 (by omega)), if_neg (hne 10 (by omega)), if_neg (hne 11 (by omega)),
          if_neg (hne 12 (by omega)), if_neg (hne 13 (by omega)), if_neg (hne 14 (by omega)),
          if_neg (hne 15 (by omega))]
    rw [h16]
    decide

theorem toDigitsCore_ne_lbrace (b : Nat) :
    ∀ (fuel n : Nat) (ds : List Char), (∀ ch ∈ ds, ch ≠ '\x7b') →
      ∀ ch ∈ Nat.toDigitsCore b fuel n ds, ch ≠ '\x7b' := by
  intro fuel
  induction fuel with
  | zero =>
    intro n ds h
    simpa [Nat.toDigitsCore] using h
  | succ f ih =>
    intro n ds h ch hch
    simp only [Nat.toDigitsCore] at hch
    split at hch
    · rcases List.mem_cons.mp hch with rfl | hm
      · exact digitChar_ne_lbrace _
      · exact h ch hm
    · exact ih (n / b) (Nat.digitChar (n % b) :: ds)
        (fun c hc => by
          rcases List.mem_cons.mp hc with rfl | hm
          · exact digitChar_ne_lbrace _
          · exact h c hm) ch hch

theorem repr_no_lbrace (n : Nat) : '\x7b' ∈ (Nat.repr n).data → False := by
  intro hmem
  have hall : ∀ ch ∈ Nat.toDigits 10 n, ch ≠ '\x7b' :=
    toDigitsCore_ne_lbrace 10 (n + 1) n [] (by simp)
  have hdata : (Nat.repr n).data = Nat.toDigits 10 n := rfl
  rw [hdata] at hmem
  exact hall _ hmem rfl

/-- C9: for a non-empty template that renders successfully and contains
both placeholders, the rendered block contains the configured item name and
the decimal rendering of the sensitivity integer as substrings and no
unresolved placeholder token (the item name being brace-free), and the
middleware prepends the rendered block to a non-empty outbound system
prompt separated by a blank line, or installs it as the entire system
prompt when none exists. -/
theorem C9_prompt_injection (prompt_template item_name : String)
    (sensitivity : Nat) (system_prompt : String) (r : List Char)
    (ht : prompt_template ≠ "")
    (hr : formatTemplate item_name.data (Nat.repr sensitivity).data
      prompt_template.data = some r)
    (hitem : "\x7bitem_name\x7d".data <:+: prompt_template.data)
    (hsens : "\x7bsensitivity\x7d".data <:+: prompt_template.data)
    (hclean : '\x7b' ∈ item_name.data → False) :
    (item_name.data <:+: r ∧ (Nat.repr sensitivity).data <:+: r) ∧
    (¬ ("\x7bitem_name\x7d".data <:+: r) ∧
      ¬ ("\x7bsensitivity\x7d".data <:+: r)) ∧
    (system_prompt ≠ "" →
      before_llm_request true prompt_template item_name sensitivity system_prompt =
        r.asString ++ "\n\n" ++ system_prompt) ∧
    (system_prompt = "" →
      before_llm_request true prompt_template item_name sensitivity system_prompt =
        r.asString) := by
  have hrf : formatTemplateFuel item_name.data (Nat.repr sensitivity).data
      prompt_template.data.length prompt_template.data = some r := hr
  have hbr : '\x7b' ∈ r → False :=
    formatTemplateFuel_no_lbrace item_name.data (Nat.repr sensitivity).data hclean
      (repr_no_lbrace sensitivity) prompt_template.data.length prompt_template.data r hrf
  refine ⟨⟨?_, ?_⟩, ⟨?_, ?_⟩, ?_, ?_⟩
  · exact formatTemplateFuel_item_infix _ _ _ _ _ (Nat.le_refl _) hrf hitem
  · exact formatTemplateFuel_sens_infix _ _ _ _ _ (Nat.le_refl _) hrf hsens
  · intro hq
    exact hbr (hq.subset (by decide))
  · intro hq
    exact hbr (hq.subset (by decide))
  · intro hsys
    simp [before_llm_request, ht, hr, hsys]
  · intro hsys
    simp [before_llm_request, ht, hr, hsys]

theorem C9_witness :
    (("\x7bitem_name\x7d-\x7bsensitivity\x7d" : String) ≠ "" ∧
      formatTemplate "Widget".data (Nat.repr 75).data
        "\x7bitem_name\x7d-\x7bsensitivity\x7d".data = some "Widget-75".data ∧
      ("\x7bitem_name\x7d".data : List Char) <:+:
        "\x7bitem_name\x7d-\x7bsensitivity\x7d".data ∧
      ("\x7bsensitivity\x7d".data : List Char) <:+:
        "\x7bitem_name\x7d-\x7bsensitivity\x7d".data) ∧
    (("Widget".data : List Char) <:+: "Widget-75".data ∧
      ((Nat.repr 75).data : List Char) <:+: "Widget-75".data) ∧
    (¬ (("\x7bitem_name\x7d".data : List Char) <:+: "Widget-75".data) ∧
      ¬ (("\x7bsensitivity\x7d".data : List Char) <:+: "Widget-75".data)) ∧
    before_llm_request true "\x7bitem_name\x7d-\x7bsensitivity\x7d" "Widget" 75 "old" =
      ("Widget-75".data).asString ++ "\n\n" ++ "old" :=
  ⟨⟨by decide, by decide, by decide, by decide⟩,
   (C9_prompt_injection "\x7bitem_name\x7d-\x7bsensitivity\x7d" "Widget" 75 "old"
     "Widget-75".data (by decide) (by decide) (by decide) (by decide) (by decide)).1,
   (C9_prompt_injection "\x7bitem_name\x7d-\x7bsensitivity\x7d" "Widget" 75 "old"
     "Widget-75".data (by decide) (by decide) (by decide) (by decide) (by decide)).2.1,
   (C9_prompt_injection "\x7bitem_name\x7d-\x7bsensitivity\x7d" "Widget" 75 "old"
     "Widget-75".data (by decide) (by decide) (by decide) (by decide) (by decide)).2.2.1
     (by decide)⟩

end ImmersiveControl
